import Mathlib

/-!
Verification development for the ELISA plate manager
(`elisa_gui.py` / `elisa_app.py`).

The program's core logic is shallowly embedded here:

* strings are `List Char` (Python `str`);
* Python floats parsed from the grid are idealised as exact rationals `ℚ`;
  a missing / unparsable value (`None` / `NaN`) is `Option.none`;
* `pandas` column operations (`dropna`, `mean`, `std`, comparison with a
  possibly-NaN threshold) are modelled on lists, with `NaN` represented by
  `none` and every comparison against `NaN` yielding `false`, exactly as
  IEEE / pandas behave in the source's expressions;
* the sample standard deviation of two or more values involves a square
  root, so thresholds live in `ℝ` (this branch is never evaluated by any
  claim; values and means stay in `ℚ`).

Category labels are the literal strings of the source
(`"K- healthy"` = NegativeHealthy, `"substrate blank"` = SubstrateBlank,
`"K+"` = PositiveControl, `"K- buffer"` = NegativeBuffer, `""` = Unassigned).
-/

/-! ## Character utilities (Python `str.upper`, regex character classes) -/

/-- Python `str.upper` restricted to one character.  Only ASCII letters can
influence the source's address regex: in the Unicode case table no
character outside `a`–`z` uppercases to a single letter `A`–`H`, no
character uppercases to a decimal digit or to a newline, and the
multi-character expansions (`"ﬀ" → "FF"` and the like) produce letters
only, so applying the ASCII mapping characterwise is extensionally
faithful for every match `well_to_rc` performs. -/
def pyUpper (c : Char) : Char :=
  if 97 ≤ c.toNat ∧ c.toNat ≤ 122 then Char.ofNat (c.toNat - 32) else c

/-- ASCII digit class, used by the spec-modelled decimal parser of the
legacy dual-table path (spec §4.3 reads cells as plain decimal numbers). -/
def isDig (c : Char) : Bool :=
  decide (48 ≤ c.toNat ∧ c.toNat ≤ 57)

/-- The regex class `[A-H]` (code points of `A`–`H`). -/
def isLetterAH (c : Char) : Bool :=
  decide (65 ≤ c.toNat ∧ c.toNat ≤ 72)

/-- Decimal digits parsed by the spec-modelled decimal parser (most
significant first). -/
def digitsToNat (ds : List Char) : Nat :=
  ds.foldl (fun a c => 10 * a + (c.toNat - 48)) 0

/-- Zero code points of every decimal-digit block (Unicode general category
`Nd`) above ASCII, from the Unicode 14.0 character database that CPython
3.11 ships.  Each `Nd` block is ten consecutive code points, the lowest
being 1632 (Arabic-Indic zero); both the regex class `\d` and `int()`
accept exactly the `Nd` characters, each worth its offset in its block. -/
def ndHighZeros : List Nat :=
  [1632, 1776, 1984, 2406, 2534, 2662, 2790, 2918, 3046, 3174, 3302, 3430,
   3558, 3664, 3792, 3872, 4160, 4240, 6112, 6160, 6470, 6608, 6784, 6800,
   6992, 7088, 7232, 7248, 42528, 43216, 43264, 43472, 43504, 43600, 44016,
   65296, 66720, 68912, 69734, 69872, 69942, 70096, 70384, 70736, 70864,
   71248, 71360, 71472, 71904, 72016, 72784, 73040, 73120, 92768, 92864,
   93008, 120782, 120792, 120802, 120812, 120822, 123200, 123632, 125264,
   130032]

/-- Decimal value of a character as Python's `\d` and `int()` see it: the
ASCII digits `0`–`9`, plus the non-ASCII `Nd` blocks of `ndHighZeros`
(there is no `Nd` code point strictly between 57 and 1632). -/
def pyDigitVal (c : Char) : Option Nat :=
  if c.toNat < 1632 then
    (if 48 ≤ c.toNat ∧ c.toNat ≤ 57 then some (c.toNat - 48) else none)
  else
    ndHighZeros.findSome?
      (fun s => if s ≤ c.toNat ∧ c.toNat < s + 10 then some (c.toNat - s)
        else none)

/-- The regex class `\d`: any Unicode decimal digit. -/
def pyIsDigit (c : Char) : Bool :=
  (pyDigitVal c).isSome

/-- Python `int` of a string of decimal digits (most significant first),
each digit worth its `Nd` decimal value. -/
def digitsVal (ds : List Char) : Nat :=
  ds.foldl (fun a c => 10 * a + (pyDigitVal c).getD 0) 0

/-- Python whitespace characters (`\s` for the ASCII range). -/
def pyWsB (c : Char) : Bool :=
  c == ' ' || c == '\t' || c == '\n' || c == '\r' || c == '\x0b' || c == '\x0c'

/-! ## `App.well_to_rc` (elisa_gui.py lines 250-258) -/

/-- The range check of `well_to_rc`: `r = ord(letter) - 65`,
`c = int(digits) - 1`, `if 0 <= r < 8 and 0 <= c < 12`.  Python integers are
signed, so the subtractions are taken in `ℤ`. -/
def rcCheck (l : Char) (n : Nat) : Option (Nat × Nat) :=
  if 0 ≤ (l.toNat : Int) - 65 ∧ (l.toNat : Int) - 65 < 8 ∧
      0 ≤ (n : Int) - 1 ∧ (n : Int) - 1 < 12 then
    some (((l.toNat : Int) - 65).toNat, ((n : Int) - 1).toNat)
  else none

/-- The effect of `$` in `re.match` without `MULTILINE`: the match may end
either at the end of the string or just before one final `'\n'`, so one
trailing newline is tolerated (`"A1\n"` matches; `"A1\r"` and `"A1\n\n"`
do not). -/
def dropFinalNewline (s : List Char) : List Char :=
  if s.getLast? = some '\n' then s.dropLast else s

/-- The body of `re.match(r"^([A-H])(\d{1,2})$", ...)` on the uppercased,
`$`-adjusted string, followed by `int` on the digit group and the
zero-based range check. -/
def wellMatch : List Char → Option (Nat × Nat)
  | [l, d1] =>
      if isLetterAH l && pyIsDigit d1 then rcCheck l (digitsVal [d1])
      else none
  | [l, d1, d2] =>
      if isLetterAH l && pyIsDigit d1 && pyIsDigit d2 then
        rcCheck l (digitsVal [d1, d2])
      else none
  | _ => none

/-- `App.well_to_rc`: uppercase the input, match it against
`^([A-H])(\d{1,2})$` — where `\d` is any Unicode decimal digit and `$`
also matches just before one final newline — convert the digit group with
`int`, and range-check the zero-based row / column.  Returns `none` where
the source returns `None`. -/
def well_to_rc (s : List Char) : Option (Nat × Nat) :=
  wellMatch (dropFinalNewline (s.map pyUpper))

/-- The canonical address string built by `App.collect_data`
(elisa_gui.py line 328): the f-string `chr(65+r)` followed by the decimal
digits of `c+1`. -/
def formatWell (r c : Nat) : List Char :=
  Char.ofNat (65 + r) :: (Nat.repr (c + 1)).toList

/-! ## `parse_wells` (elisa_gui.py lines 82-83) -/

/-- Separator class of the regex `[\s,]+`. -/
def isSepB (c : Char) : Bool :=
  pyWsB c || c == ','

/-- Split a string at every single separator character, keeping the (possibly
empty) chunks between consecutive separators.  `re.split(r"[\s,]+", t)`
splits at maximal separator runs instead, but after the source drops the
empty tokens (`if w.strip()`) both splittings leave exactly the same token
list, so this simpler recursion is extensionally faithful inside
`parse_wells`. -/
def splitEvery : List Char → List Char → List (List Char)
  | [], acc => [acc.reverse]
  | c :: rest, acc =>
      if isSepB c then acc.reverse :: splitEvery rest []
      else splitEvery rest (c :: acc)

/-- `parse_wells`: split on whitespace/comma runs, drop empty tokens,
uppercase each token, and collapse duplicates (the source builds a Python
`set`; `dedup` keeps first occurrences, and no property below depends on
the iteration order of that set). -/
def parse_wells (t : List Char) : List (List Char) :=
  (((splitEvery t []).filter (fun w => w ≠ [])).map (List.map pyUpper)).dedup

/-! ## `parse_table` (elisa_gui.py lines 76-79) -/

/-- Python `str.strip`: remove leading and trailing whitespace. -/
def pyStrip (s : List Char) : List Char :=
  ((s.dropWhile pyWsB).reverse.dropWhile pyWsB).reverse

/-- Helper for `pySplitlines`: accumulate the current line (reversed) and cut
at `\r\n`, `\n` or `\r`. -/
def splitlinesAux : List Char → List Char → List (List Char)
  | [], acc => if acc = [] then [] else [acc.reverse]
  | '\r' :: '\n' :: rest, acc => acc.reverse :: splitlinesAux rest []
  | '\n' :: rest, acc => acc.reverse :: splitlinesAux rest []
  | '\r' :: rest, acc => acc.reverse :: splitlinesAux rest []
  | c :: rest, acc => splitlinesAux rest (c :: acc)

/-- Python `str.splitlines` for the line boundaries `\r\n`, `\n`, `\r`
(the ones producible by the clipboard paths of the source; a trailing
boundary produces no empty final line, interior empty lines are kept). -/
def pySplitlines (s : List Char) : List (List Char) :=
  splitlinesAux s []

/-- The splitter `re.split(r"\t|,|\s+", line)`: a single tab or a single
comma is a separator on its own (the alternation tries `\t` and `,` before
`\s+`), while any other whitespace character opens a greedy whitespace run
(`\s+`) that also absorbs following tabs; empty cells between two adjacent
separators are kept, exactly as `re.split` keeps them.  The boolean
argument records being inside a `\s+` run (it replaces the equivalent
`dropWhile` so that the recursion stays structural). -/
def reSplitAux : List Char → List Char → Bool → List (List Char)
  | [], acc, _ => [acc.reverse]
  | c :: rest, acc, skipping =>
      if skipping && pyWsB c then reSplitAux rest acc true
      else if c == '\t' || c == ',' then acc.reverse :: reSplitAux rest [] false
      else if pyWsB c then acc.reverse :: reSplitAux rest [] true
      else reSplitAux rest (c :: acc) false

/-- `parse_table`: strip the text, split it into lines, strip each line,
drop blank lines, and split every remaining line on tab / comma /
whitespace-run. -/
def parse_table (text : List Char) : List (List (List Char)) :=
  let lines := ((pySplitlines (pyStrip text)).map pyStrip).filter (fun l => l ≠ [])
  lines.map (fun l => reSplitAux l [] false)

/-! ## The plate grid rows collected by `App.collect_data`
(elisa_gui.py lines 324-338).  `value` is the already-parsed
`float(text) or None`; category strings are the source's literals. -/

structure Well where
  well : String
  sample : String
  value : Option ℚ
  category : String
  serum : String
deriving Repr, DecidableEq

/-- `pandas` mean of a list of (non-NaN) values.  Both uses in the source
(`blank_vals.mean()`, `healthy.mean()`) are guarded by a non-emptiness
check, so the junk value this returns on `[]` (pandas would give NaN) is
never relied upon. -/
def mean (xs : List ℚ) : ℚ :=
  xs.sum / xs.length

/-- `df["value"].dropna()` (elisa_gui.py line 390). -/
def plateValues (wells : List Well) : List ℚ :=
  wells.filterMap Well.value

/-- `df[df["category"] == "substrate blank"]["value"].dropna()` (line 394). -/
def blankVals (wells : List Well) : List ℚ :=
  (wells.filter (fun w => w.category == "substrate blank")).filterMap Well.value

/-- `blank = blank_vals.mean() if not blank_vals.empty else 0.0` (line 395). -/
def blankOf (wells : List Well) : ℚ :=
  if blankVals wells ≠ [] then mean (blankVals wells) else 0

/-- One entry of `df["normalized"] = df["value"] - blank` (line 396):
subtracting a (non-NaN) float from NaN stays NaN, i.e. `none` stays
`none`. -/
def normVal (b : ℚ) (w : Well) : Option ℚ :=
  w.value.map (fun v => v - b)

/-- The whole `normalized` column (line 396). -/
def normalizedCol (wells : List Well) : List (Option ℚ) :=
  wells.map (normVal (blankOf wells))

/-- `healthy = df[df["category"] == "K- healthy"]["normalized"].dropna()`
(line 398). -/
def healthyOf (wells : List Well) : List ℚ :=
  (wells.filter (fun w => w.category == "K- healthy")).filterMap
    (normVal (blankOf wells))

/-- `pandas.Series.std()` with its default `ddof=1`: NaN (`none`) when there
are fewer than two values — the `0/0` of Bessel's correction — and
otherwise the square root of the sample variance
`Σ (x - mean)² / (n - 1)`. -/
noncomputable def sampleStd (xs : List ℚ) : Option ℝ :=
  if xs.length < 2 then none
  else
    some (Real.sqrt
      ((xs.map (fun x => ((x : ℝ) - (mean xs : ℝ)) ^ 2)).sum /
        ((xs.length : ℝ) - 1)))

/-- The threshold of `App.calculate_results` (lines 407-410):
`mean + mult * std` for the `"SD"` method — NaN (`none`) as soon as the
standard deviation is NaN — and `mean * mult` for any other method string
(the combo box offers `"SD"` and `"Multiple"`). -/
noncomputable def thresholdOf (method : String) (healthy : List ℚ)
    (mult : ℚ) : Option ℝ :=
  if method == "SD" then
    (sampleStd healthy).map (fun s => ((mean healthy : ℚ) : ℝ) + (mult : ℝ) * s)
  else some (((mean healthy * mult : ℚ) : ℝ))

/-- The float comparison `x > threshold` of line 411, on possibly-NaN
operands: any comparison involving NaN is false. -/
def optGtR : Option ℚ → Option ℝ → Prop
  | some x, some t => (x : ℝ) > t
  | _, _ => False

/-- One output row of `calculate_results`: the columns displayed and
persisted (lines 411, 419-429).  `result` is
`"positive" if x > threshold else "negative"` — note that the `apply`
lambda runs on every row, including rows whose `normalized` is NaN. -/
structure ResultRow where
  well : String
  sample : String
  serum : String
  normalized : Option ℚ
  result : String
deriving Repr, DecidableEq

open Classical in
noncomputable def rowOf (b : ℚ) (t : Option ℝ) (w : Well) : ResultRow :=
  { well := w.well, sample := w.sample, serum := w.serum,
    normalized := normVal b w,
    result := if optGtR (normVal b w) t then "positive" else "negative" }

/-- The two early-return warnings of `App.calculate_results`. -/
inductive CalcError
  | NoNumeric
  | NoControlData
deriving Repr, DecidableEq

/-- The `messagebox.showwarning` texts of lines 391 and 400. -/
def warnMsg : CalcError → String
  | .NoNumeric => "No numeric values to analyze"
  | .NoControlData => "No healthy sap values provided"

/-- `App.calculate_results` (elisa_gui.py lines 386-411), as a function of
the collected grid: warn and return if the `value` column is all NaN;
normalise against the blank mean; warn and return if the `"K- healthy"`
normalized population is empty; otherwise derive the threshold and label
every row.  The database write-back and text display that follow are
external side effects of the already-computed table. -/
noncomputable def calculate_results (wells : List Well) (method : String)
    (mult : ℚ) : Except CalcError (List ResultRow) :=
  if plateValues wells = [] then .error .NoNumeric
  else if healthyOf wells = [] then .error .NoControlData
  else .ok (wells.map
    (rowOf (blankOf wells) (thresholdOf method (healthyOf wells) mult)))

/-! ## Category assignment (`App.assign_selected` lines 274-288 and
`App.assign_from_entries` lines 296-305).  Both paths funnel through the
same per-well update: write the category, and write the serum label only
when it is non-empty.  The mutable dicts `self.categories` /
`self.serums` are modelled as total functions (with the default `""`
folded into the initial state). -/

structure AssignState where
  categories : Nat × Nat → String
  serums : Nat × Nat → String

/-- Dictionary update `d[rc] = v`. -/
def setAt (f : Nat × Nat → String) (rc : Nat × Nat) (v : String) :
    Nat × Nat → String :=
  fun x => if x = rc then v else f x

/-- The body shared by both assignment loops:
`self.categories[rc] = cat; if serum: self.serums[rc] = serum`. -/
def assignStep (serum cat : String) (st : AssignState) (rc : Nat × Nat) :
    AssignState :=
  { categories := setAt st.categories rc cat,
    serums := if serum ≠ "" then setAt st.serums rc serum else st.serums }

/-- One invocation of `App.assign_selected(cat)`: the directly selected
cells, then every address token of the category's entry text that
`well_to_rc` accepts (tokens it rejects — malformed or out of the 8×12
grid — are skipped by the `if rc:` guard). -/
structure AssignOp where
  cat : String
  selected : List (Nat × Nat)
  entryText : List Char
  serum : String

def assign_selected (st : AssignState) (op : AssignOp) : AssignState :=
  let st1 := op.selected.foldl (assignStep op.serum op.cat) st
  (parse_wells op.entryText).foldl
    (fun s w =>
      match well_to_rc w with
      | some rc => assignStep op.serum op.cat s rc
      | none => s) st1

/-- The set of cells an assignment writes to. -/
def covers (op : AssignOp) : List (Nat × Nat) :=
  op.selected ++ (parse_wells op.entryText).filterMap well_to_rc

/-- A sequence of assignment operations, applied in order. -/
def applyOps (s0 : AssignState) (ops : List AssignOp) : AssignState :=
  ops.foldl assign_selected s0

/-! ## The legacy dual-text-table input path (spec §4.3).  Only
`parse_table` survives in src (declared at elisa_gui.py lines 76-79 but
never called; `App.paste_clipboard` handles one table at a time), so the
combination of the two tables is modelled from the spec. -/

inductive ShapeError
  | ShapeMismatch
deriving Repr, DecidableEq

/-- One cell of the plate built from the two tables. -/
structure GridCell where
  sample : List Char
  value : Option ℚ
deriving Repr, DecidableEq

/-- Modelled from the spec: `rawValueText` of §4.3 "is parsed as a decimal
number; on parse failure or empty text, `rawValue` is absent" — an
optional sign, then digits with an optional decimal point (at least one
digit overall); anything else, including the empty string, is absent. -/
def parseDecimal (s : List Char) : Option ℚ :=
  let sr : ℚ × List Char :=
    match s with
    | '-' :: r => (-1, r)
    | '+' :: r => (1, r)
    | r => (1, r)
  let ip := sr.2.takeWhile isDig
  let rest := sr.2.drop ip.length
  match rest with
  | [] => if ip = [] then none else some (sr.1 * digitsToNat ip)
  | '.' :: fr =>
      let fp := fr.takeWhile isDig
      if fr.drop fp.length ≠ [] then none
      else if ip = [] ∧ fp = [] then none
      else some (sr.1 * ((digitsToNat ip : ℚ) +
        (digitsToNat fp : ℚ) / (10 : ℚ) ^ fp.length))
  | _ => none

/-- Modelled from the spec (§4.3): the legacy dual-text-table input mode is
absent from src, so it is taken from the spec's words — parse the two text
blocks with `parse_table` (embedded above from the source), fail with
`ShapeMismatch` when the two tables do not have the same row count, and
otherwise build the grid row by row, reading a missing cell of either
table as empty text (empty sample name, absent value). -/
def dual_table_build (namesText valuesText : List Char) :
    Except ShapeError (List (List GridCell)) :=
  let tn := parse_table namesText
  let tv := parse_table valuesText
  if tn.length ≠ tv.length then .error .ShapeMismatch
  else .ok ((List.range tn.length).map (fun i =>
    let rn := tn.getD i []
    let rv := tv.getD i []
    (List.range (max rn.length rv.length)).map (fun j =>
      { sample := rn.getD j [], value := parseDecimal (rv.getD j []) })))

/-! ## Facts about the character utilities -/

lemma char_toNat_ofNat {n : Nat} (h : n < 55296) : (Char.ofNat n).toNat = n := by
  have hv : n.isValidChar := Or.inl h
  rw [Char.ofNat, dif_pos hv]
  rfl

lemma isLetterAH_iff (c : Char) :
    isLetterAH c = true ↔ (65 ≤ c.toNat ∧ c.toNat ≤ 72) := by
  simp [isLetterAH]

lemma pyDigitVal_mid_none (c : Char) (h1 : 58 ≤ c.toNat)
    (h2 : c.toNat ≤ 1631) : pyDigitVal c = none := by
  unfold pyDigitVal
  rw [if_pos (by omega), if_neg (by omega)]

lemma pyIsDigit_pyUpper (c : Char) : pyIsDigit (pyUpper c) = pyIsDigit c := by
  unfold pyUpper
  by_cases h : 97 ≤ c.toNat ∧ c.toNat ≤ 122
  · rw [if_pos h]
    have ht : (Char.ofNat (c.toNat - 32)).toNat = c.toNat - 32 :=
      char_toNat_ofNat (by omega)
    unfold pyIsDigit
    rw [pyDigitVal_mid_none (Char.ofNat (c.toNat - 32)) (by rw [ht]; omega)
        (by rw [ht]; omega),
      pyDigitVal_mid_none c (by omega) (by omega)]
  · rw [if_neg h]

lemma pyUpper_of_pyDigit {c : Char} (h : pyIsDigit c = true) : pyUpper c = c := by
  by_cases hl : 97 ≤ c.toNat ∧ c.toNat ≤ 122
  · exfalso
    have hz := pyDigitVal_mid_none c (by omega) (by omega)
    unfold pyIsDigit at h
    rw [hz] at h
    simp at h
  · rw [pyUpper, if_neg hl]

lemma pyUpper_eq_newline {c : Char} (h : pyUpper c = '\n') : c = '\n' := by
  by_cases hl : 97 ≤ c.toNat ∧ c.toNat ≤ 122
  · exfalso
    rw [pyUpper, if_pos hl] at h
    have ht : (Char.ofNat (c.toNat - 32)).toNat = c.toNat - 32 :=
      char_toNat_ofNat (by omega)
    rw [h] at ht
    have h10 : Char.toNat '\n' = 10 := by decide
    rw [h10] at ht
    omega
  · rw [pyUpper, if_neg hl] at h
    exact h

lemma dropFinalNewline_map (s : List Char) :
    dropFinalNewline (s.map pyUpper) = (dropFinalNewline s).map pyUpper := by
  unfold dropFinalNewline
  rw [List.getLast?_map]
  by_cases h : s.getLast? = some '\n'
  · rw [h, if_pos (by decide), if_pos rfl, List.map_dropLast]
  · have h2 : ¬ Option.map pyUpper s.getLast? = some '\n' := by
      cases hg : s.getLast? with
      | none => simp
      | some c =>
        intro hc
        simp only [Option.map_some'] at hc
        rw [Option.some.injEq] at hc
        exact h (by rw [hg, pyUpper_eq_newline hc])
    rw [if_neg h2, if_neg h]

lemma rcCheck_eq_some (l : Char) (n a b : Nat) :
    rcCheck l n = some (a, b) ↔
      (65 ≤ l.toNat ∧ l.toNat < 73 ∧ 1 ≤ n ∧ n ≤ 12 ∧
        a + 65 = l.toNat ∧ b + 1 = n) := by
  unfold rcCheck
  by_cases h : (0 ≤ (l.toNat : Int) - 65 ∧ (l.toNat : Int) - 65 < 8 ∧
      0 ≤ (n : Int) - 1 ∧ (n : Int) - 1 < 12)
  · rw [if_pos h]
    simp only [Option.some.injEq, Prod.mk.injEq]
    omega
  · rw [if_neg h]
    simp only [false_iff, reduceCtorEq]
    omega

/-- Characterization of the regex body: on an uppercased string, the match
succeeds with the zero-based pair `(a, b)` exactly on a letter whose
uppercase form is in `A`–`H` followed by one or two decimal digits whose
value is 1–12, with `a` the letter index and `b` the column number minus
one. -/
lemma wellMatch_map_some_iff : ∀ (s : List Char) (a b : Nat),
    wellMatch (s.map pyUpper) = some (a, b) ↔
      (∃ l ds, s = l :: ds ∧ isLetterAH (pyUpper l) = true ∧
        ds ≠ [] ∧ ds.length ≤ 2 ∧ (∀ d ∈ ds, pyIsDigit d = true) ∧
        1 ≤ digitsVal ds ∧ digitsVal ds ≤ 12 ∧
        a + 65 = (pyUpper l).toNat ∧ b + 1 = digitsVal ds) := by
  intro s a b
  match s with
  | [] =>
    constructor
    · intro h
      simp [wellMatch] at h
    · rintro ⟨l, ds, hs, -⟩
      simp at hs
  | [a1] =>
    constructor
    · intro h
      simp [wellMatch] at h
    · rintro ⟨l, ds, hs, -, hne, -⟩
      rw [List.cons.injEq] at hs
      rcases hs with ⟨-, hds⟩
      simp [← hds] at hne
  | [a1, b1] =>
    simp only [List.map_cons, List.map_nil, wellMatch]
    cases hg : (isLetterAH (pyUpper a1) && pyIsDigit (pyUpper b1)) with
    | false =>
      simp only [Bool.false_eq_true, if_false]
      constructor
      · intro h
        simp at h
      · rintro ⟨l, ds, hs, hL, -, -, hdig, -⟩
        rw [List.cons.injEq] at hs
        rcases hs with ⟨hl, hds⟩
        have hd1 : pyIsDigit b1 = true := by
          apply hdig
          rw [← hds]
          simp
        rw [← hl] at hL
        rw [hL, pyIsDigit_pyUpper, hd1] at hg
        simp at hg
    | true =>
      simp only [if_true]
      rw [Bool.and_eq_true] at hg
      obtain ⟨hL, hD⟩ := hg
      have hDb : pyIsDigit b1 = true := by rw [← pyIsDigit_pyUpper]; exact hD
      rw [pyUpper_of_pyDigit hDb, rcCheck_eq_some]
      constructor
      · rintro ⟨h65, h73, h1, h12, ha, hb⟩
        refine ⟨a1, [b1], rfl, hL, by simp, by simp, by simp [hDb], h1, h12, ?_, hb⟩
        rw [isLetterAH_iff] at hL
        omega
      · rintro ⟨l, ds, hs, hLs, -, -, -, h1, h12, ha, hb⟩
        rw [List.cons.injEq] at hs
        rcases hs with ⟨hl, hds⟩
        rw [← hl] at hLs ha
        rw [← hds] at h1 h12 hb
        rw [isLetterAH_iff] at hLs
        exact ⟨by omega, by omega, h1, h12, by omega, hb⟩
  | [a1, b1, c1] =>
    simp only [List.map_cons, List.map_nil, wellMatch]
    cases hg : (isLetterAH (pyUpper a1) && pyIsDigit (pyUpper b1)
        && pyIsDigit (pyUpper c1)) with
    | false =>
      simp only [Bool.false_eq_true, if_false]
      constructor
      · intro h
        simp at h
      · rintro ⟨l, ds, hs, hL, -, -, hdig, -⟩
        rw [List.cons.injEq] at hs
        rcases hs with ⟨hl, hds⟩
        have hd1 : pyIsDigit b1 = true := by
          apply hdig; rw [← hds]; simp
        have hd2 : pyIsDigit c1 = true := by
          apply hdig; rw [← hds]; simp
        rw [← hl] at hL
        rw [hL, pyIsDigit_pyUpper, pyIsDigit_pyUpper, hd1, hd2] at hg
        simp at hg
    | true =>
      simp only [if_true]
      rw [Bool.and_eq_true, Bool.and_eq_true] at hg
      obtain ⟨⟨hL, hD1⟩, hD2⟩ := hg
      have hDb : pyIsDigit b1 = true := by rw [← pyIsDigit_pyUpper]; exact hD1
      have hDc : pyIsDigit c1 = true := by rw [← pyIsDigit_pyUpper]; exact hD2
      rw [pyUpper_of_pyDigit hDb, pyUpper_of_pyDigit hDc, rcCheck_eq_some]
      constructor
      · rintro ⟨h65, h73, h1, h12, ha, hb⟩
        refine ⟨a1, [b1, c1], rfl, hL, by simp, by simp, ?_, h1, h12, ?_, hb⟩
        · intro d hd
          rcases List.mem_pair.mp hd with h | h
          · rw [h]; exact hDb
          · rw [h]; exact hDc
        · rw [isLetterAH_iff] at hL
          omega
      · rintro ⟨l, ds, hs, hLs, -, -, -, h1, h12, ha, hb⟩
        rw [List.cons.injEq] at hs
        rcases hs with ⟨hl, hds⟩
        rw [← hl] at hLs ha
        rw [← hds] at h1 h12 hb
        rw [isLetterAH_iff] at hLs
        exact ⟨by omega, by omega, h1, h12, by omega, hb⟩
  | a1 :: b1 :: c1 :: d1 :: t =>
    constructor
    · intro h
      simp [wellMatch] at h
    · rintro ⟨l, ds, hs, -, -, hlen, -⟩
      rw [List.cons.injEq] at hs
      rcases hs with ⟨-, hds⟩
      rw [← hds] at hlen
      simp at hlen

/-- The core shape of a valid address string: one letter whose uppercase
form is `A`–`H` (case-insensitive), followed by one or two decimal digits
(Unicode `\d`) forming a number 1–12, and nothing else. -/
def isWellSpecCore (s : List Char) : Prop :=
  ∃ l ds, s = l :: ds ∧ isLetterAH (pyUpper l) = true ∧
    ds ≠ [] ∧ ds.length ≤ 2 ∧ (∀ d ∈ ds, pyIsDigit d = true) ∧
    1 ≤ digitsVal ds ∧ digitsVal ds ≤ 12

lemma not_core_concat_newline (r : List Char) :
    ¬ isWellSpecCore (r ++ ['\n']) := by
  rintro ⟨l, ds, hs, hL, hne, -, hdig, -⟩
  have hlast : (r ++ ['\n']).getLast? = some '\n' := List.getLast?_concat r
  rw [hs] at hlast
  have hmem : '\n' ∈ l :: ds := by
    have hsplit := List.dropLast_append_getLast? '\n' hlast
    rw [← hsplit]
    simp
  rcases List.mem_cons.mp hmem with h | h
  · rw [← h] at hL
    exact absurd hL (by decide)
  · exact absurd (hdig _ h) (by decide)

lemma dropFinalNewline_spec (s : List Char) :
    (s.getLast? ≠ some '\n' ∧ dropFinalNewline s = s) ∨
      (∃ r, s = r ++ ['\n'] ∧ dropFinalNewline s = r) := by
  by_cases h : s.getLast? = some '\n'
  · right
    exact ⟨s.dropLast, (List.dropLast_append_getLast? _ h).symm,
      by rw [dropFinalNewline, if_pos h]⟩
  · left
    exact ⟨h, by rw [dropFinalNewline, if_neg h]⟩

/-- Claim C7, amended: address parsing is case-insensitive and succeeds
exactly for strings of one letter `A`–`H` followed by one or two decimal
digits forming a number 1–12, optionally followed by one final newline
(Python `$` matches just before a trailing `'\n'`), returning the
corresponding zero-based `(row, column)` pair; any other input fails
(`None`), in particular `"I1"`, `"A13"`, `"A0"`, `""` and `"AA1"`. -/
theorem C7_well_address_parse :
    (∀ s : List Char, (well_to_rc s).isSome = true ↔
      (isWellSpecCore s ∨ ∃ r, s = r ++ ['\n'] ∧ isWellSpecCore r))
    ∧ (∀ (s : List Char) (a b : Nat), well_to_rc s = some (a, b) →
        ∃ l ds, (s = l :: ds ∨ s = (l :: ds) ++ ['\n']) ∧
          a + 65 = (pyUpper l).toNat ∧ b + 1 = digitsVal ds)
    ∧ well_to_rc ("I1".toList) = none ∧ well_to_rc ("A13".toList) = none
    ∧ well_to_rc ("A0".toList) = none ∧ well_to_rc ("".toList) = none
    ∧ well_to_rc ("AA1".toList) = none := by
  refine ⟨?_, ?_, by decide, by decide, by decide, by decide, by decide⟩
  · intro s
    have hiff : (well_to_rc s).isSome = true ↔
        isWellSpecCore (dropFinalNewline s) := by
      rw [well_to_rc, dropFinalNewline_map]
      constructor
      · intro h
        rw [Option.isSome_iff_exists] at h
        obtain ⟨⟨a, b⟩, hp⟩ := h
        rw [wellMatch_map_some_iff] at hp
        obtain ⟨l, ds, h1, h2, h3, h4, h5, h6, h7, -, -⟩ := hp
        exact ⟨l, ds, h1, h2, h3, h4, h5, h6, h7⟩
      · rintro ⟨l, ds, h1, h2, h3, h4, h5, h6, h7⟩
        rw [Option.isSome_iff_exists]
        have hL := (isLetterAH_iff _).mp h2
        refine ⟨((pyUpper l).toNat - 65, digitsVal ds - 1), ?_⟩
        rw [wellMatch_map_some_iff]
        exact ⟨l, ds, h1, h2, h3, h4, h5, h6, h7, by omega, by omega⟩
    rw [hiff]
    rcases dropFinalNewline_spec s with ⟨hne, heq⟩ | ⟨r, hs, hd⟩
    · rw [heq]
      constructor
      · exact Or.inl
      · rintro (h | ⟨r, hs, hr⟩)
        · exact h
        · exact absurd (by rw [hs]; exact List.getLast?_concat r) hne
    · rw [hd]
      constructor
      · intro h
        exact Or.inr ⟨r, hs, h⟩
      · rintro (h | ⟨r2, hs2, hr2⟩)
        · exact absurd h (by rw [hs]; exact not_core_concat_newline r)
        · have hrr : r2 = r :=
            List.append_cancel_right
              (show r2 ++ ['\n'] = r ++ ['\n'] by rw [← hs, ← hs2])
          rw [← hrr]
          exact hr2
  · intro s a b h
    rw [well_to_rc, dropFinalNewline_map, wellMatch_map_some_iff] at h
    obtain ⟨l, ds, h1, -, -, -, -, -, -, h8, h9⟩ := h
    rcases dropFinalNewline_spec s with ⟨-, heq⟩ | ⟨r, hs, hd⟩
    · rw [heq] at h1
      exact ⟨l, ds, Or.inl h1, h8, h9⟩
    · rw [hd] at h1
      rw [h1] at hs
      exact ⟨l, ds, Or.inr hs, h8, h9⟩

/-- Counterexample to claim C7 as stated: the source accepts `"A1\n"` —
`$` matches before the trailing newline — and returns `(0, 0)`, although
the string has a trailing character beyond the letter-plus-digits shape,
which the claim says must be rejected. -/
theorem C7_counterexample :
    well_to_rc ['A', '1', '\n'] = some (0, 0)
    ∧ ¬ isWellSpecCore ['A', '1', '\n'] := by
  constructor
  · decide
  · rintro ⟨l, ds, hs, -, -, -, hdig, -⟩
    rw [List.cons.injEq] at hs
    obtain ⟨-, hds⟩ := hs
    have h1 : pyIsDigit '\n' = true := by
      apply hdig
      rw [← hds]
      simp
    exact absurd h1 (by decide)

/-- Witness for C7: both directions of the characterization are exercised
on concrete inputs (`"a1"` parses, hence matches the amended shape;
`"h12\n"` matches the amended shape — core `"h12"` plus one trailing
newline — hence parses). -/
theorem C7_witness :
    (isWellSpecCore ("a1".toList) ∨
      ∃ r, "a1".toList = r ++ ['\n'] ∧ isWellSpecCore r)
    ∧ (well_to_rc ((String.toList "h12\n"))).isSome = true :=
  ⟨(C7_well_address_parse.1 _).mp (by decide),
   (C7_well_address_parse.1 _).mpr
     (Or.inr ⟨"h12".toList, by decide,
       ⟨'h', ['1', '2'], by decide, by decide, by decide, by decide,
        by decide, by decide, by decide⟩⟩)⟩

/-- Claim C8: for every valid address (row < 8, column < 12), formatting it
with the source's f-string and parsing the result with `well_to_rc` yields
the same pair back. -/
theorem C8_format_parse_roundtrip : ∀ r : Nat, r < 8 → ∀ c : Nat, c < 12 →
    well_to_rc (formatWell r c) = some (r, c) := by decide

/-- Witness for C8 at the last cell of the plate. -/
theorem C8_witness : well_to_rc (formatWell 7 11) = some (7, 11) :=
  C8_format_parse_roundtrip 7 (by decide) 11 (by decide)

/-! ## The guards of `calculate_results` (claims C10, C3) -/

lemma plateValues_eq_nil_iff (wells : List Well) :
    plateValues wells = [] ↔ ∀ w ∈ wells, w.value = none := by
  simp [plateValues, List.filterMap_eq_nil_iff]

lemma normVal_eq_none_iff (b : ℚ) (w : Well) :
    normVal b w = none ↔ w.value = none := by
  cases h : w.value <;> simp [normVal, h]

lemma healthyOf_eq_nil_iff (wells : List Well) :
    healthyOf wells = [] ↔
      ∀ w ∈ wells, w.category = "K- healthy" → w.value = none := by
  rw [healthyOf, List.filterMap_eq_nil_iff]
  constructor
  · intro h w hw hcat
    rw [← normVal_eq_none_iff (blankOf wells)]
    exact h w (List.mem_filter.mpr ⟨hw, by simp [hcat]⟩)
  · intro h w hw
    obtain ⟨hmem, hcat⟩ := List.mem_filter.mp hw
    rw [normVal_eq_none_iff]
    exact h w hmem (by simpa using hcat)

/-- Claim C10: classification on a plate whose `value` column is entirely
absent — and only such a plate — warns `"No numeric values to analyze"`
and returns before computing anything (no output rows exist). -/
theorem C10_all_absent_guard (wells : List Well) (method : String) (mult : ℚ) :
    (calculate_results wells method mult = .error .NoNumeric ↔
      ∀ w ∈ wells, w.value = none)
    ∧ warnMsg .NoNumeric = "No numeric values to analyze" := by
  refine ⟨?_, rfl⟩
  rw [← plateValues_eq_nil_iff]
  unfold calculate_results
  by_cases h : plateValues wells = []
  · rw [if_pos h]
    simp [h]
  · rw [if_neg h]
    by_cases h2 : healthyOf wells = []
    · rw [if_pos h2]
      simp [h]
    · rw [if_neg h2]
      simp [h]

/-- Witness for C10 on a one-well plate with an absent value
(fields: well, sample, value, category, serum). -/
theorem C10_witness :
    calculate_results [⟨"A1", "x", none, "", ""⟩] "SD" 3 =
      .error .NoNumeric :=
  (C10_all_absent_guard _ "SD" 3).1.mpr (by decide)

/-- Claim C3, amended: on a plate that has at least one numeric raw value
but no `"K- healthy"` well with a value, classification stops with the
`"No healthy sap values provided"` warning (`NoControlData`) and produces
no rows, so no `result` is ever written.  (The amendment: a plate with no
numeric values at all is caught by the earlier guard of line 390 and warns
`NoNumeric` instead — see the counterexample.) -/
theorem C3_no_control_data (wells : List Well) (method : String) (mult : ℚ)
    (hnum : ¬ ∀ w ∈ wells, w.value = none)
    (hctl : ∀ w ∈ wells, w.category = "K- healthy" → w.value = none) :
    calculate_results wells method mult = .error .NoControlData
    ∧ (∀ rows, calculate_results wells method mult ≠ .ok rows)
    ∧ warnMsg .NoControlData = "No healthy sap values provided" := by
  have h1 : ¬ plateValues wells = [] := by
    rw [plateValues_eq_nil_iff]
    exact hnum
  have h2 : healthyOf wells = [] := (healthyOf_eq_nil_iff wells).mpr hctl
  unfold calculate_results
  rw [if_neg h1, if_pos h2]
  exact ⟨rfl, by intro rows h; simp at h, rfl⟩

/-- The plate that refutes claim C3 as stated: its `"K- healthy"`-with-value
population is empty, yet classification does not report `NoControlData`. -/
def demoAllAbsent : List Well :=
  [⟨"A1", "", none, "K- healthy", ""⟩]

/-- Counterexample to claim C3 as stated: a plate whose control population
(`"K- healthy"` wells with a value) is empty, but on which classification
reports the earlier `NoNumeric` warning (line 391), not `NoControlData`. -/
theorem C3_counterexample :
    healthyOf demoAllAbsent = []
    ∧ calculate_results demoAllAbsent "SD" 3 ≠ .error .NoControlData
    ∧ calculate_results demoAllAbsent "SD" 3 = .error .NoNumeric := by
  have hp : plateValues demoAllAbsent = [] := by decide
  have hok : calculate_results demoAllAbsent "SD" 3 = .error .NoNumeric := by
    unfold calculate_results
    rw [if_pos hp]
  refine ⟨by decide, ?_, hok⟩
  rw [hok]
  simp

/-- Witness for C3 on a one-well plate with a value but no control wells. -/
theorem C3_witness :
    calculate_results [⟨"A1", "", some 1, "", ""⟩] "SD" 3 =
      .error .NoControlData :=
  (C3_no_control_data _ "SD" 3 (by decide) (by decide)).1

/-! ## Normalization (claim C5) -/

/-- Claim C5: the blank is the mean of the raw values of
`"substrate blank"` wells (defaulting to `0` — not an error — when no such
well has a value); every well with a raw value is normalized to
`rawValue - blank`; and a plate with no blank-category wells at all keeps
every well's normalized value equal to its raw value. -/
theorem C5_normalization (wells : List Well) :
    (blankVals wells ≠ [] → blankOf wells = mean (blankVals wells))
    ∧ (blankVals wells = [] → blankOf wells = 0)
    ∧ (∀ w ∈ wells, ∀ x : ℚ, w.value = some x →
        normVal (blankOf wells) w = some (x - blankOf wells))
    ∧ ((∀ w ∈ wells, w.category ≠ "substrate blank") →
        normalizedCol wells = wells.map Well.value) := by
  refine ⟨?_, ?_, ?_, ?_⟩
  · intro h
    rw [blankOf, if_pos h]
  · intro h
    rw [blankOf, if_neg (by simp [h])]
  · intro w hw x hx
    simp [normVal, hx]
  · intro h
    have hb : blankVals wells = [] := by
      unfold blankVals
      have hf : wells.filter (fun w => w.category == "substrate blank") = [] := by
        rw [List.filter_eq_nil_iff]
        intro w hw
        simp only [beq_iff_eq]
        exact h w hw
      rw [hf]
      rfl
    have hb0 : blankOf wells = 0 := by
      rw [blankOf, if_neg (by simp [hb])]
    rw [normalizedCol, hb0]
    apply List.map_congr_left
    intro w hw
    simp [normVal]

/-- The spec §8 normalization example: blank wells at 0.1 and 0.2 and a
sample at 0.5 (fields: well, sample, value, category, serum). -/
def demoBlankPlate : List Well :=
  [⟨"A1", "", some (1/10), "substrate blank", ""⟩,
   ⟨"A2", "", some (1/5), "substrate blank", ""⟩,
   ⟨"A3", "", some (1/2), "", ""⟩]

/-- A plate without any blank-category well. -/
def demoNoBlankPlate : List Well :=
  [⟨"A1", "", some (1/2), "K- healthy", ""⟩, ⟨"A2", "", none, "", ""⟩]

/-- Witness for C5: on the spec's example plate the blank mean is 0.15 and
the sample normalizes to 0.35; on a plate without blank wells the
normalized column equals the value column. -/
theorem C5_witness :
    blankOf demoBlankPlate = 3/20
    ∧ normVal (blankOf demoBlankPlate) ⟨"A3", "", some (1/2), "", ""⟩ =
        some (7/20)
    ∧ normalizedCol demoNoBlankPlate = demoNoBlankPlate.map Well.value := by
  have h := C5_normalization demoBlankPlate
  have hbv : blankVals demoBlankPlate = [1/10, 1/5] := by
    simp [blankVals, demoBlankPlate, List.filter, List.filterMap]
  have hb : blankOf demoBlankPlate = 3/20 := by
    rw [h.1 (by rw [hbv]; simp), hbv]
    norm_num [mean]
  refine ⟨hb, ?_, ?_⟩
  · have h3 := h.2.2.1 ⟨"A3", "", some (1/2), "", ""⟩
      (by simp [demoBlankPlate]) (1/2) rfl
    rw [h3, hb]
    norm_num
  · exact (C5_normalization demoNoBlankPlate).2.2.2 (by decide)

/-! ## Category assignment semantics (claim C9) -/

lemma assignStep_cat (serum cat : String) (st : AssignState)
    (rc x : Nat × Nat) :
    (assignStep serum cat st rc).categories x =
      if x = rc then cat else st.categories x := by
  simp [assignStep, setAt]

lemma assignStep_serum (serum cat : String) (st : AssignState)
    (rc x : Nat × Nat) :
    (assignStep serum cat st rc).serums x =
      if serum ≠ "" ∧ x = rc then serum else st.serums x := by
  unfold assignStep setAt
  by_cases hs : serum = ""
  · simp [hs]
  · simp only [hs, ne_eq, not_false_iff, if_true]
    by_cases hx : x = rc
    · simp [hx, hs]
    · simp [hx, hs]

lemma foldl_sel_cat (serum cat : String) :
    ∀ (l : List (Nat × Nat)) (st : AssignState) (x : Nat × Nat),
      ((l.foldl (assignStep serum cat) st).categories x =
        if x ∈ l then cat else st.categories x) := by
  intro l
  induction l with
  | nil => simp
  | cons p t ih =>
    intro st x
    rw [List.foldl_cons, ih, assignStep_cat]
    by_cases h1 : x ∈ t
    · simp [h1]
    · by_cases h2 : x = p
      · simp [h1, h2]
      · simp [h1, h2]

lemma foldl_sel_serum (serum cat : String) :
    ∀ (l : List (Nat × Nat)) (st : AssignState) (x : Nat × Nat),
      ((l.foldl (assignStep serum cat) st).serums x =
        if serum ≠ "" ∧ x ∈ l then serum else st.serums x) := by
  intro l
  induction l with
  | nil => simp
  | cons p t ih =>
    intro st x
    rw [List.foldl_cons, ih, assignStep_serum]
    by_cases h0 : serum = ""
    · simp [h0]
    · by_cases h1 : x ∈ t
      · simp [h0, h1]
      · by_cases h2 : x = p
        · simp [h0, h1, h2]
        · simp [h0, h1, h2]

lemma foldl_tok_cat (serum cat : String) :
    ∀ (ts : List (List Char)) (st : AssignState) (x : Nat × Nat),
      (((ts.foldl (fun s w =>
          match well_to_rc w with
          | some rc => assignStep serum cat s rc
          | none => s) st).categories x) =
        if x ∈ ts.filterMap well_to_rc then cat else st.categories x) := by
  intro ts
  induction ts with
  | nil => simp
  | cons w t ih =>
    intro st x
    rw [List.foldl_cons]
    cases hw : well_to_rc w with
    | none =>
      simp only [hw]
      rw [ih, List.filterMap_cons, hw]
    | some rc =>
      simp only [hw]
      rw [ih, List.filterMap_cons, hw, assignStep_cat]
      by_cases h1 : x ∈ t.filterMap well_to_rc
      · simp [h1]
      · by_cases h2 : x = rc
        · simp [h1, h2]
        · simp [h1, h2]

lemma foldl_tok_serum (serum cat : String) :
    ∀ (ts : List (List Char)) (st : AssignState) (x : Nat × Nat),
      (((ts.foldl (fun s w =>
          match well_to_rc w with
          | some rc => assignStep serum cat s rc
          | none => s) st).serums x) =
        if serum ≠ "" ∧ x ∈ ts.filterMap well_to_rc then serum
        else st.serums x) := by
  intro ts
  induction ts with
  | nil => simp
  | cons w t ih =>
    intro st x
    rw [List.foldl_cons]
    cases hw : well_to_rc w with
    | none =>
      simp only [hw]
      rw [ih, List.filterMap_cons, hw]
    | some rc =>
      simp only [hw]
      rw [ih, List.filterMap_cons, hw, assignStep_serum]
      by_cases h0 : serum = ""
      · simp [h0]
      · by_cases h1 : x ∈ t.filterMap well_to_rc
        · simp [h0, h1]
        · by_cases h2 : x = rc
          · simp [h0, h1, h2]
          · simp [h0, h1, h2]

lemma assign_selected_cat (st : AssignState) (op : AssignOp) (x : Nat × Nat) :
    (assign_selected st op).categories x =
      if x ∈ covers op then op.cat else st.categories x := by
  unfold assign_selected covers
  rw [foldl_tok_cat, foldl_sel_cat]
  by_cases h1 : x ∈ (parse_wells op.entryText).filterMap well_to_rc
  · simp [h1, List.mem_append]
  · by_cases h2 : x ∈ op.selected
    · simp [h1, h2, List.mem_append]
    · simp [h1, h2, List.mem_append]

lemma assign_selected_serum (st : AssignState) (op : AssignOp)
    (x : Nat × Nat) :
    (assign_selected st op).serums x =
      if op.serum ≠ "" ∧ x ∈ covers op then op.serum else st.serums x := by
  unfold assign_selected covers
  rw [foldl_tok_serum, foldl_sel_serum]
  by_cases h0 : op.serum = ""
  · simp [h0]
  · by_cases h1 : x ∈ (parse_wells op.entryText).filterMap well_to_rc
    · simp [h0, h1, List.mem_append]
    · by_cases h2 : x ∈ op.selected
      · simp [h0, h1, h2, List.mem_append]
      · simp [h0, h1, h2, List.mem_append]

/-- Claim C9: after any sequence of assignment operations, a cell's category
is the one of the most recent operation that covered it (last write wins,
no merge); the serum label likewise comes from the most recent covering
operation whose label was non-empty (an empty label never overwrites); and
every cell reached through the typed-address path lies inside the 8×12
grid — out-of-grid address tokens are ignored. -/
theorem C9_last_write_wins (s0 : AssignState) (ops : List AssignOp)
    (rc : Nat × Nat) :
    ((applyOps s0 ops).categories rc =
      match ops.reverse.find? (fun op => decide (rc ∈ covers op)) with
      | some op => op.cat
      | none => s0.categories rc)
    ∧ ((applyOps s0 ops).serums rc =
      match ops.reverse.find?
          (fun op => decide (op.serum ≠ "" ∧ rc ∈ covers op)) with
      | some op => op.serum
      | none => s0.serums rc)
    ∧ (∀ (t : List Char) (a b : Nat),
        (a, b) ∈ (parse_wells t).filterMap well_to_rc → a < 8 ∧ b < 12) := by
  refine ⟨?_, ?_, ?_⟩
  · induction ops generalizing s0 with
    | nil => simp [applyOps]
    | cons op t ih =>
      have hstep : applyOps s0 (op :: t) = applyOps (assign_selected s0 op) t := by
        simp [applyOps]
      rw [hstep, ih, List.reverse_cons, List.find?_append]
      cases hf : t.reverse.find? (fun op => decide (rc ∈ covers op)) with
      | some o => simp [hf]
      | none =>
        simp only [hf, Option.none_or]
        rw [assign_selected_cat]
        by_cases hc : rc ∈ covers op
        · simp [List.find?, hc]
        · simp [List.find?, hc]
  · induction ops generalizing s0 with
    | nil => simp [applyOps]
    | cons op t ih =>
      have hstep : applyOps s0 (op :: t) = applyOps (assign_selected s0 op) t := by
        simp [applyOps]
      rw [hstep, ih, List.reverse_cons, List.find?_append]
      cases hf : t.reverse.find?
          (fun op => decide (op.serum ≠ "" ∧ rc ∈ covers op)) with
      | some o => simp [hf]
      | none =>
        simp only [hf, Option.none_or]
        rw [assign_selected_serum]
        by_cases hc : op.serum ≠ "" ∧ rc ∈ covers op
        · simp [List.find?, hc]
        · simp [List.find?, hc]
  · intro t a b hmem
    rw [List.mem_filterMap] at hmem
    obtain ⟨w, -, hw⟩ := hmem
    rw [well_to_rc, dropFinalNewline_map, wellMatch_map_some_iff] at hw
    obtain ⟨l, ds, -, hL, -, -, -, -, h12, ha, hb⟩ := hw
    rw [isLetterAH_iff] at hL
    omega

/-- Initial assignment state: every cell unassigned, no serum labels
(the Python dicts start empty and default to `""` on read). -/
def demoState : AssignState :=
  ⟨fun _ => "", fun _ => ""⟩

/-- First demo operation: typed list `"a1"`, category `"K+"`, serum label. -/
def opA : AssignOp :=
  ⟨"K+", [], "a1".toList, "serumX"⟩

/-- Second demo operation: direct selection of cell (0,0), new category,
empty serum label. -/
def opB : AssignOp :=
  ⟨"K- healthy", [(0, 0)], "".toList, ""⟩

/-- Witness for C9: reassigning well A1 leaves only the most recent
category, while the empty-label operation does not erase the label. -/
theorem C9_witness :
    (applyOps demoState [opA, opB]).categories (0, 0) = "K- healthy"
    ∧ (applyOps demoState [opA, opB]).serums (0, 0) = "serumX" := by
  have h := C9_last_write_wins demoState [opA, opB] (0, 0)
  rw [h.1, h.2.1]
  exact ⟨rfl, rfl⟩

/-! ## Evaluating `calculate_results` (claims C1, C2, C6) -/

lemma optGtR_none_left (t : Option ℝ) : ¬ optGtR none t := by
  cases t <;> simp [optGtR]

lemma optGtR_none_right (nv : Option ℚ) : ¬ optGtR nv none := by
  cases nv <;> simp [optGtR]

lemma optGtR_some_some (x : ℚ) (t : ℝ) :
    optGtR (some x) (some t) ↔ (x : ℝ) > t := Iff.rfl

lemma calculate_results_ok (wells : List Well) (method : String) (mult : ℚ)
    (h1 : plateValues wells ≠ []) (h2 : healthyOf wells ≠ []) :
    calculate_results wells method mult =
      .ok (wells.map
        (rowOf (blankOf wells) (thresholdOf method (healthyOf wells) mult))) := by
  unfold calculate_results
  rw [if_neg h1, if_neg h2]

lemma calc_ok_inv (wells : List Well) (method : String) (mult : ℚ)
    (rows : List ResultRow)
    (hok : calculate_results wells method mult = .ok rows) :
    rows = wells.map
      (rowOf (blankOf wells) (thresholdOf method (healthyOf wells) mult)) := by
  unfold calculate_results at hok
  by_cases h1 : plateValues wells = []
  · rw [if_pos h1] at hok
    simp at hok
  · rw [if_neg h1] at hok
    by_cases h2 : healthyOf wells = []
    · rw [if_pos h2] at hok
      simp at hok
    · rw [if_neg h2] at hok
      simp only [Except.ok.injEq] at hok
      exact hok.symm

lemma rowOf_result_none_threshold (b : ℚ) (w : Well) :
    (rowOf b none w).result = "negative" := by
  rw [rowOf]
  exact if_neg (optGtR_none_right _)

lemma rowOf_result_none_value (b : ℚ) (t : Option ℝ) (w : Well)
    (h : normVal b w = none) :
    (rowOf b t w).result = "negative" := by
  simp only [rowOf]
  rw [h]
  exact if_neg (optGtR_none_left _)

lemma sampleStd_single (x : ℚ) : sampleStd [x] = none := by
  simp [sampleStd]

lemma healthy_nonempty_plateValues (wells : List Well)
    (hne : healthyOf wells ≠ []) : plateValues wells ≠ [] := by
  intro hp
  apply hne
  rw [healthyOf_eq_nil_iff]
  intro w hw _
  exact (plateValues_eq_nil_iff wells).mp hp w hw

/-- Claim C1, amended: with exactly one `"K- healthy"` control value, the
`"SD"` classification does not fail — it still returns a full result table
— but pandas' sample standard deviation (`ddof=1`) of a single value is
NaN, not 0: the threshold is NaN rather than the single control's
normalized value, and consequently every well of the plate (comparison
with NaN being false) is classified `"negative"`. -/
theorem C1_single_control_sd (wells : List Well) (mult : ℚ)
    (h1 : (healthyOf wells).length = 1) :
    calculate_results wells "SD" mult =
      .ok (wells.map (rowOf (blankOf wells) none))
    ∧ thresholdOf "SD" (healthyOf wells) mult = none
    ∧ ∀ row ∈ wells.map (rowOf (blankOf wells) none),
        row.result = "negative" := by
  obtain ⟨x, hx⟩ := List.length_eq_one.mp h1
  have hth : thresholdOf "SD" (healthyOf wells) mult = none := by
    rw [hx]
    simp [thresholdOf, sampleStd_single]
  have hne : healthyOf wells ≠ [] := by
    rw [hx]
    simp
  have hpv := healthy_nonempty_plateValues wells hne
  refine ⟨?_, hth, ?_⟩
  · rw [calculate_results_ok wells "SD" mult hpv hne, hth]
  · intro row hrow
    rw [List.mem_map] at hrow
    obtain ⟨w, -, hrw⟩ := hrow
    rw [← hrw]
    exact rowOf_result_none_threshold _ _

/-- A plate with a single `"K- healthy"` control (normalized value 0) and
one test sample at 1 (fields: well, sample, value, category, serum). -/
def demoSingleControl : List Well :=
  [⟨"A1", "", some 0, "K- healthy", ""⟩, ⟨"A2", "", some 1, "", ""⟩]

/-- Counterexample to claim C1 as stated: on a single-control plate the
`"SD"` threshold is NaN (`none`) — pandas' one-element sample standard
deviation is NaN, not the claimed 0 — so the threshold does not equal the
single control's normalized value (here 0). -/
theorem C1_counterexample :
    healthyOf demoSingleControl = [0]
    ∧ thresholdOf "SD" (healthyOf demoSingleControl) 3 = none
    ∧ thresholdOf "SD" (healthyOf demoSingleControl) 3 ≠ some ((0 : ℚ) : ℝ) := by
  have hh : healthyOf demoSingleControl = [0] := by
    simp [healthyOf, demoSingleControl, blankOf, blankVals, normVal]
  refine ⟨hh, ?_, ?_⟩
  · rw [hh]
    simp [thresholdOf, sampleStd_single]
  · rw [hh]
    simp [thresholdOf, sampleStd_single]

/-- Witness for C1 on the single-control plate: classification succeeds and
labels every well `"negative"`. -/
theorem C1_witness :
    (healthyOf demoSingleControl).length = 1
    ∧ calculate_results demoSingleControl "SD" 3 =
        .ok (demoSingleControl.map (rowOf (blankOf demoSingleControl) none))
    ∧ ∀ row ∈ demoSingleControl.map (rowOf (blankOf demoSingleControl) none),
        row.result = "negative" := by
  have hlen : (healthyOf demoSingleControl).length = 1 := by decide
  have h := C1_single_control_sd demoSingleControl 3 hlen
  exact ⟨hlen, h.1, h.2.2⟩

/-! ## Wells with absent values under classification (claim C2) -/

lemma rowOf_normalized (b : ℚ) (t : Option ℝ) (w : Well) :
    (rowOf b t w).normalized = normVal b w := rfl

/-- Claim C2, amended: after a successful classification pass, a well whose
raw value is absent has `normalized` absent, but its `result` is NOT left
absent — the `apply` lambda of line 411 evaluates `NaN > threshold` to
false and assigns `"negative"` to it. -/
theorem C2_absent_value_negative (wells : List Well) (method : String)
    (mult : ℚ) (rows : List ResultRow)
    (hok : calculate_results wells method mult = .ok rows)
    (i : Nat) (hi : i < rows.length) (hw : i < wells.length)
    (hv : (wells.get ⟨i, hw⟩).value = none) :
    (rows.get ⟨i, hi⟩).normalized = none
    ∧ (rows.get ⟨i, hi⟩).result = "negative" := by
  have hrows := calc_ok_inv wells method mult rows hok
  subst hrows
  have hnv : normVal (blankOf wells) (wells.get ⟨i, hw⟩) = none := by
    rw [normVal_eq_none_iff]
    exact hv
  rw [List.get_eq_getElem, List.getElem_map]
  constructor
  · rw [rowOf_normalized]
    convert hnv using 3
  · have := rowOf_result_none_value (blankOf wells)
      (thresholdOf method (healthyOf wells) mult) (wells.get ⟨i, hw⟩) hnv
    convert this using 3

/-- A plate with one control at 0 and one well whose value is absent
(fields: well, sample, value, category, serum). -/
def demoAbsentValue : List Well :=
  [⟨"A1", "", some 0, "K- healthy", ""⟩, ⟨"A2", "", none, "", ""⟩]

/-- Fallback row used with `List.getD` (never actually selected). -/
def rDefault : ResultRow :=
  ⟨"", "", "", none, ""⟩

/-- Counterexample to claim C2 as stated: classification on
`demoAbsentValue` succeeds, and the well `"A2"` — whose raw value, hence
normalized value, is absent — is assigned the result `"negative"` instead
of being left without a result. -/
theorem C2_counterexample :
    calculate_results demoAbsentValue "Multiple" 1 =
      .ok (demoAbsentValue.map
        (rowOf (blankOf demoAbsentValue)
          (thresholdOf "Multiple" (healthyOf demoAbsentValue) 1)))
    ∧ ((demoAbsentValue.map
        (rowOf (blankOf demoAbsentValue)
          (thresholdOf "Multiple" (healthyOf demoAbsentValue) 1))).getD 1
            rDefault).normalized = none
    ∧ ((demoAbsentValue.map
        (rowOf (blankOf demoAbsentValue)
          (thresholdOf "Multiple" (healthyOf demoAbsentValue) 1))).getD 1
            rDefault).result = "negative" := by
  refine ⟨calculate_results_ok demoAbsentValue "Multiple" 1 (by decide) (by decide),
    ?_, ?_⟩
  · show (rowOf (blankOf demoAbsentValue)
      (thresholdOf "Multiple" (healthyOf demoAbsentValue) 1)
      ⟨"A2", "", none, "", ""⟩).normalized = none
    rfl
  · show (rowOf (blankOf demoAbsentValue)
      (thresholdOf "Multiple" (healthyOf demoAbsentValue) 1)
      ⟨"A2", "", none, "", ""⟩).result = "negative"
    exact rowOf_result_none_value _ _ _ rfl

/-- Witness for C2 (amended) at the concrete plate `demoAbsentValue`. -/
theorem C2_witness :
    ((demoAbsentValue.map
      (rowOf (blankOf demoAbsentValue)
        (thresholdOf "Multiple" (healthyOf demoAbsentValue) 1))).getD 1
          rDefault).result = "negative" := by
  have hok := calculate_results_ok demoAbsentValue "Multiple" 1
    (by decide) (by decide)
  have hlen : 1 < (demoAbsentValue.map
      (rowOf (blankOf demoAbsentValue)
        (thresholdOf "Multiple" (healthyOf demoAbsentValue) 1))).length := by
    simp [demoAbsentValue]
  have h := C2_absent_value_negative demoAbsentValue "Multiple" 1 _ hok 1
    hlen (by simp [demoAbsentValue]) (by simp [demoAbsentValue])
  rw [List.getD_eq_getElem _ _ hlen]
  rw [List.get_eq_getElem] at h
  exact h.2

/-! ## The Multiplier method and strict threshold comparison (claim C6) -/

/-- Claim C6: under the `"Multiple"` method the threshold is
`mean(control) * multiplier`, classification of a well is `"positive"`
exactly when its normalized value is present and strictly greater than
that threshold, and a well exactly at the threshold is `"negative"`. -/
theorem C6_multiplier_strict (wells : List Well) (mult : ℚ)
    (rows : List ResultRow)
    (hok : calculate_results wells "Multiple" mult = .ok rows) :
    thresholdOf "Multiple" (healthyOf wells) mult =
      some ((mean (healthyOf wells) * mult : ℚ) : ℝ)
    ∧ ∀ i (hi : i < rows.length) (hw : i < wells.length),
        ((rows.get ⟨i, hi⟩).result = "positive" ↔
          (∃ x : ℚ, normVal (blankOf wells) (wells.get ⟨i, hw⟩) = some x ∧
            ((x : ℝ) > ((mean (healthyOf wells) * mult : ℚ) : ℝ))))
        ∧ ((rows.get ⟨i, hi⟩).normalized =
              some (mean (healthyOf wells) * mult) →
            (rows.get ⟨i, hi⟩).result = "negative") := by
  have hth : thresholdOf "Multiple" (healthyOf wells) mult =
      some ((mean (healthyOf wells) * mult : ℚ) : ℝ) := by
    rw [thresholdOf, if_neg (by decide)]
  refine ⟨hth, ?_⟩
  intro i hi hw
  have hget : rows.get ⟨i, hi⟩ =
      rowOf (blankOf wells) (thresholdOf "Multiple" (healthyOf wells) mult)
        (wells.get ⟨i, hw⟩) := by
    have hrows := calc_ok_inv wells "Multiple" mult rows hok
    subst hrows
    simp only [List.get_eq_getElem, List.getElem_map]
  rw [hget, hth]
  constructor
  · cases hnv : normVal (blankOf wells) (wells.get ⟨i, hw⟩) with
    | none =>
      rw [rowOf_result_none_value _ _ _ hnv]
      constructor
      · intro habs
        exact absurd habs (by decide)
      · rintro ⟨x, hx, -⟩
        simp at hx
    | some y =>
      simp only [rowOf]
      rw [hnv]
      by_cases hgt : (y : ℝ) > ((mean (healthyOf wells) * mult : ℚ) : ℝ)
      · have hgt2 : optGtR (some y)
            (some ((mean (healthyOf wells) * mult : ℚ) : ℝ)) := hgt
        rw [if_pos hgt2]
        exact ⟨fun _ => ⟨y, rfl, hgt⟩, fun _ => rfl⟩
      · have hngt2 : ¬ optGtR (some y)
            (some ((mean (healthyOf wells) * mult : ℚ) : ℝ)) := hgt
        rw [if_neg hngt2]
        constructor
        · intro habs
          exact absurd habs (by decide)
        · rintro ⟨x, hx, hxgt⟩
          rw [Option.some.injEq] at hx
          exact absurd hxgt (hx ▸ hgt)
  · intro hnorm
    rw [rowOf_normalized] at hnorm
    simp only [rowOf]
    rw [hnorm]
    rw [if_neg]
    intro hc
    exact lt_irrefl _ hc

/-- The claim's example plate: three `"K- healthy"` controls at 0, one
sample at 0.5 and one sample at exactly the threshold 0. -/
def demoMultiplier : List Well :=
  [⟨"A1", "", some 0, "K- healthy", ""⟩, ⟨"A2", "", some 0, "K- healthy", ""⟩,
   ⟨"A3", "", some 0, "K- healthy", ""⟩, ⟨"A4", "", some (1/2), "", ""⟩,
   ⟨"A5", "", some 0, "", ""⟩]

/-- The result table of `demoMultiplier` under the `"Multiple"` method with
multiplier 3. -/
noncomputable def demoMultRows : List ResultRow :=
  demoMultiplier.map
    (rowOf (blankOf demoMultiplier)
      (thresholdOf "Multiple" (healthyOf demoMultiplier) 3))

/-- Witness for C6: on the example plate the threshold is `0 * 3 = 0`, the
sample strictly above it is `"positive"`, and the sample exactly at the
threshold is `"negative"`. -/
theorem C6_witness :
    calculate_results demoMultiplier "Multiple" 3 = .ok demoMultRows
    ∧ (demoMultRows.getD 3 rDefault).result = "positive"
    ∧ (demoMultRows.getD 4 rDefault).result = "negative" := by
  have hok : calculate_results demoMultiplier "Multiple" 3 = .ok demoMultRows :=
    calculate_results_ok demoMultiplier "Multiple" 3 (by decide) (by decide)
  have hh : healthyOf demoMultiplier = [0, 0, 0] := by
    simp [healthyOf, demoMultiplier, blankOf, blankVals, normVal]
  have hb : blankOf demoMultiplier = 0 := by
    simp [blankOf, blankVals, demoMultiplier]
  have hmean : mean (healthyOf demoMultiplier) = 0 := by
    rw [hh]
    norm_num [mean]
  have hlen : demoMultRows.length = 5 := by
    simp [demoMultRows, demoMultiplier]
  have h := C6_multiplier_strict demoMultiplier 3 demoMultRows hok
  have h3 := h.2 3 (by omega) (by simp [demoMultiplier])
  have h4 := h.2 4 (by omega) (by simp [demoMultiplier])
  refine ⟨hok, ?_, ?_⟩
  · have hpos := h3.1.mpr ⟨1/2, ?_, ?_⟩
    · rw [List.getD_eq_getElem _ _ (by omega)]
      rw [List.get_eq_getElem] at hpos
      exact hpos
    · show normVal (blankOf demoMultiplier)
        (⟨"A4", "", some (1/2), "", ""⟩ : Well) = some (1/2)
      rw [hb]
      simp [normVal]
    · rw [hmean]
      push_cast
      norm_num
  · have hnorm : (demoMultRows.get ⟨4, by omega⟩).normalized =
        some (mean (healthyOf demoMultiplier) * 3) := by
      have hrow5 : demoMultRows.get ⟨4, by omega⟩ =
          rowOf (blankOf demoMultiplier)
            (thresholdOf "Multiple" (healthyOf demoMultiplier) 3)
            ⟨"A5", "", some 0, "", ""⟩ := rfl
      rw [hrow5, rowOf_normalized, hb, hmean]
      simp [normVal]
    have hneg := h4.2
    rw [List.getD_eq_getElem _ _ (by omega)]
    have hneg2 := hneg ?_
    · rw [List.get_eq_getElem] at hneg2
      exact hneg2
    · exact hnorm

/-! ## The legacy dual-table input path (claim C4) -/

/-- Claim C4 (the combination of the two tables is modelled from the spec,
§4.3, since only `parse_table` survives in src): the dual-text-table path
fails with `ShapeMismatch` exactly when the two parsed tables disagree in
row count — producing no plate at all — while equal row counts always
succeed, per-row column-count mismatches being tolerated by reading a
missing cell as empty sample text / absent value (checked concretely on a
names row of two cells against a values row of one cell). -/
theorem C4_dual_table_shape :
    (∀ n v, dual_table_build n v = .error .ShapeMismatch ↔
      (parse_table n).length ≠ (parse_table v).length)
    ∧ (∀ n v, (parse_table n).length = (parse_table v).length →
        ∃ g, dual_table_build n v = .ok g)
    ∧ dual_table_build ("x y".toList) ("1".toList) =
        .ok [[⟨"x".toList, some 1⟩, ⟨"y".toList, none⟩]] := by
  refine ⟨?_, ?_, ?_⟩
  · intro n v
    unfold dual_table_build
    by_cases h : (parse_table n).length ≠ (parse_table v).length
    · rw [if_pos h]
      simp [h]
    · rw [if_neg h]
      simp [h]
  · intro n v h
    unfold dual_table_build
    rw [if_neg (by simp [h])]
    exact ⟨_, rfl⟩
  · have h1 : parse_table ("x y".toList) = [[['x'], ['y']]] := by decide
    have h2 : parse_table ("1".toList) = [[['1']]] := by decide
    have hpd : parseDecimal ['1'] = some 1 := by
      show some ((1 : ℚ) * ((digitsToNat ['1'] : ℕ) : ℚ)) = some 1
      have hd : digitsToNat ['1'] = 1 := by decide
      rw [hd]
      norm_num
    have hpe : parseDecimal [] = none := rfl
    unfold dual_table_build
    rw [h1, h2, if_neg (by decide)]
    simp [List.range_succ, hpd, hpe]

/-- Witness for C4: tables of two rows against one row abort with
`ShapeMismatch`. -/
theorem C4_witness :
    dual_table_build (String.toList "a b\nc d") ("1".toList) =
      .error .ShapeMismatch :=
  (C4_dual_table_shape.1 _ _).mpr (by decide)
